import Mathlib

/-!
# GafferSceneUI CameraTool

A shallow embedding of `src/GafferSceneUI/CameraTool.cpp`.

The tool is a coordinator between a viewport gadget, a scene graph and an undo
system. The tool members (`m_cameraSelectionDirty`, `m_cameraSelection`,
`m_undoGroup`, `m_dragId`, `m_cameraCentersOfInterest`,
`m_viewportCameraChangedConnection`) and the pieces of the view, viewport and
graph that the member functions read or write are gathered in one `World`
record, and each member function becomes a function on `World`.

Functions of the host libraries whose bodies are not part of the file
(`ScenePlug::pathToString`, the `TransformTool::Selection` constructor, the
Imath matrix and Euler routines, the angle conversions) are fields of the
`Host` record: every theorem holds for every choice of them.

Every call into the host that has an effect (render request, viewport setter,
connection block or unblock, undo scope, plug `setValue`, `Action::enact`) is
also appended to `World.log`, so that "this call is not made" is a statement
about the log. Signals that the host emits in response to such a call are not
delivered inside the member function: they are separate `Event`s.
-/

namespace CameraTool

/-! ## Values -/

/-- A C++ `float`, kept as its IEEE binary32 bit pattern. The tool only stores,
copies and returns such values; all arithmetic on them is done by the host. -/
structure F32 where
  bits : Nat
deriving DecidableEq, Repr

/-- The literal `1.0f`. -/
def F32.one : F32 := ⟨0x3F800000⟩

/-- An `Imath::V3f`. -/
structure V3f where
  x : F32
  y : F32
  z : F32
deriving DecidableEq, Repr

/-- An `Imath::M44f`, as its sixteen cells in row-major order. -/
structure M44f where
  cells : List F32
deriving DecidableEq, Repr

/-- A `ScenePlug::ScenePath`: a vector of names. -/
abbrev ScenePath := List String

/-! ## The center of interest map

`CameraCentersOfInterest` is a map from `std::string` to `float`. Only
`find` and `operator[]` assignment are used. -/

/-- The type of `m_cameraCentersOfInterest`: key and value pairs, at most one
pair per key when built with `mapAssign` from the empty map. -/
abbrev CameraCentersOfInterest := List (String × F32)

/-- The call `m.find( key )`, with `none` standing for `m.end()`. -/
def mapFind : CameraCentersOfInterest → String → Option F32
  | [], _ => none
  | (k, v) :: rest, key => if k = key then some v else mapFind rest key

/-- The statement `m[key] = value`: overwrite the entry for `key` when there is
one, add an entry otherwise. -/
def mapAssign : CameraCentersOfInterest → String → F32 → CameraCentersOfInterest
  | [], key, value => [(key, value)]
  | (k, v) :: rest, key, value =>
    if k = key then (k, value) :: rest else (k, v) :: mapAssign rest key value

/-! ## Plugs, selection, view, viewport -/

/-- A child plug as visited by `ValuePlugIterator`, reduced to the two queries
made on it: `settable()` and `MetadataAlgo::readOnly`. -/
structure ValuePlug where
  settable : Bool
  readOnly : Bool
deriving DecidableEq, Repr

/-- A `V3fPlug`: the value read by `getValue()` and written by `setValue()`,
and its child plugs. -/
structure V3fPlug where
  value : V3f
  children : List ValuePlug
deriving DecidableEq, Repr

/-- The two children of a `TransformPlug` that the tool touches. -/
structure TransformPlug where
  translate : V3fPlug
  rotate : V3fPlug
deriving DecidableEq, Repr

/-- The node graph: the transform plugs, addressed by pointer. -/
structure Graph where
  transformPlug : Nat → TransformPlug

/-- A `TransformTool::Selection`, with the members the tool reads. A null
`transformPlug` is `none`. -/
structure Selection where
  scene : Option Nat
  path : ScenePath
  context : Option Nat
  transformPlug : Option Nat
deriving DecidableEq, Repr

/-- The default constructed `TransformTool::Selection()`. -/
def Selection.empty : Selection :=
  { scene := none, path := [], context := none, transformPlug := none }

/-- What the tool reads from its `SceneView`: the values of `activePlug()`,
`lookThroughEnabledPlug()` and `lookThroughCameraPlug()`, the member
`option:render:camera` of the scene globals in the view context (when present),
the input scene plug and the view context. -/
structure View where
  active : Bool
  lookThroughEnabled : Bool
  lookThroughCamera : String
  renderCamera : Option String
  scenePlug : Nat
  context : Nat
deriving DecidableEq, Repr

/-- What the tool reads and writes on the `ViewportGadget`. -/
structure Viewport where
  cameraEditable : Bool
  centerOfInterest : F32
  cameraTransform : M44f
deriving DecidableEq, Repr

/-- The two bound calls handed to `Action::enact` by `viewportCameraChanged`:
both are `setCameraCenterOfInterest( camera, _ )`, with the value bound for the
do half and the value bound for the undo half. -/
structure CoiAction where
  camera : ScenePath
  doValue : F32
  undoValue : F32
deriving DecidableEq, Repr

/-- A call into the host that has an effect. -/
inductive Effect where
  | renderRequest
  | blockCameraChanged
  | unblockCameraChanged
  | setCameraEditable (editable : Bool)
  | setCenterOfInterest (centerOfInterest : F32)
  | undoScopeBegin (plug : Nat) (mergeGroup : String)
  | undoScopeEnd
  | setRotate (plug : Nat) (value : V3f)
  | setTranslate (plug : Nat) (value : V3f)
  | enact (plug : Nat) (action : CoiAction)
deriving DecidableEq, Repr

/-- Host routines called by the tool whose bodies live outside the file, and
the printed form of the `this` pointer used by the undo group format strings. -/
structure Host where
  pathToString : ScenePath → String
  stringToPath : String → ScenePath
  makeSelection : Graph → Nat → ScenePath → Nat → Selection
  sceneToTransformSpace : Graph → Selection → M44f
  sceneTransform : Graph → Selection → M44f
  m44Eq : M44f → M44f → Bool
  m44Mul : M44f → M44f → M44f
  translation : M44f → V3f
  eulerExtract : M44f → V3f
  makeNear : V3f → V3f → V3f
  degreesToRadians : V3f → V3f
  radiansToDegrees : V3f → V3f
  thisStr : String

/-- The tool members together with the view, viewport and graph it works on,
and the log of host calls made so far. The member `m_dragId` is declared in
`CameraTool.h`, outside the file; it is taken to be an `int`. -/
structure World where
  m_cameraSelectionDirty : Bool
  m_cameraSelection : Selection
  m_undoGroup : String
  m_dragId : Int
  m_cameraCentersOfInterest : CameraCentersOfInterest
  m_viewportCameraChangedBlocked : Bool
  view : View
  viewport : Viewport
  graph : Graph
  log : List Effect

/-- The plugs whose dirtiness `plugDirtied` tests for, and any other plug. -/
inductive PlugRef where
  | activePlug
  | childNamesPlug
  | transformPlug
  | globalsPlug
  | lookThroughEnabledPlug
  | lookThroughCameraPlug
  | other (id : Nat)
deriving DecidableEq, Repr

/-! ## Member functions -/

/-- The constructor: `m_dragId( 0 )`, every other member default constructed.
The initial value of `m_cameraSelectionDirty` is not set by the constructor and
is taken as an argument. -/
def construct (dirty : Bool) (view : View) (viewport : Viewport) (graph : Graph) : World :=
  { m_cameraSelectionDirty := dirty
    m_cameraSelection := Selection.empty
    m_undoGroup := ""
    m_dragId := 0
    m_cameraCentersOfInterest := []
    m_viewportCameraChangedBlocked := false
    view := view
    viewport := viewport
    graph := graph
    log := [] }

/-- The test `boost::starts_with( input, test )`: the characters of `test` are
the first characters of `input`. -/
def starts_with (input test : String) : Bool :=
  test.toList.isPrefixOf input.toList

/-- `CameraTool::contextChanged`. -/
def contextChanged (name : String) (w : World) : World :=
  if !starts_with name "ui:" then
    { w with m_cameraSelectionDirty := true, log := w.log ++ [Effect.renderRequest] }
  else
    w

/-- `CameraTool::plugDirtied`. -/
def plugDirtied (plug : PlugRef) (w : World) : World :=
  if plug = PlugRef.activePlug ||
     plug = PlugRef.childNamesPlug ||
     plug = PlugRef.transformPlug ||
     plug = PlugRef.globalsPlug ||
     plug = PlugRef.lookThroughEnabledPlug ||
     plug = PlugRef.lookThroughCameraPlug
  then
    { w with m_cameraSelectionDirty := true, log := w.log ++ [Effect.renderRequest] }
  else
    w

/-- `CameraTool::cameraPath`. -/
def cameraPath (h : Host) (w : World) : ScenePath :=
  if !w.view.active then
    []
  else if !w.view.lookThroughEnabled then
    []
  else
    let cameraPath := w.view.lookThroughCamera
    let cameraPath :=
      if cameraPath.isEmpty then
        match w.view.renderCamera with
        | some cameraData => cameraData
        | none => cameraPath
      else cameraPath
    h.stringToPath cameraPath

/-- `CameraTool::cameraSelection`: the returned selection and the tool
afterwards. The body never writes `m_cameraSelectionDirty`. -/
def cameraSelection (h : Host) (w : World) : Selection × World :=
  if !w.m_cameraSelectionDirty then
    (w.m_cameraSelection, w)
  else
    let w := { w with m_cameraSelection := Selection.empty }
    let cameraPath := cameraPath h w
    let w :=
      if !cameraPath.isEmpty then
        { w with m_cameraSelection :=
                   h.makeSelection w.graph w.view.scenePlug cameraPath w.view.context }
      else w
    (w.m_cameraSelection, w)

/-- `CameraTool::preRenderBegin`. -/
def preRenderBegin (w : World) : World :=
  { w with m_viewportCameraChangedBlocked := true
           log := w.log ++ [Effect.blockCameraChanged] }

/-- `CameraTool::setCameraCenterOfInterest`. -/
def setCameraCenterOfInterest (h : Host) (camera : ScenePath) (centerOfInterest : F32)
    (w : World) : World :=
  let key := h.pathToString camera
  { w with m_cameraCentersOfInterest := mapAssign w.m_cameraCentersOfInterest key centerOfInterest }

/-- `CameraTool::getCameraCenterOfInterest`. -/
def getCameraCenterOfInterest (h : Host) (w : World) (camera : ScenePath) : F32 :=
  let key := h.pathToString camera
  match mapFind w.m_cameraCentersOfInterest key with
  | some second => second
  | none => F32.one

/-- One `for( ValuePlugIterator it( plug ); !it.done(); ++it )` loop of
`preRenderEnd` over the children still to visit, threading the local
`selectionEditable`; the `break` ends the loop. -/
def scanChildren : List ValuePlug → Bool → Bool
  | [], selectionEditable => selectionEditable
  | it :: rest, selectionEditable =>
    if !it.settable || it.readOnly then
      false
    else
      scanChildren rest selectionEditable

/-- The local `selectionEditable` of `preRenderEnd` once both loops are done. -/
def selectionEditable (g : Graph) (selection : Selection) : Bool :=
  match selection.transformPlug with
  | none => false
  | some plug =>
    let editable := true
    let editable := scanChildren (g.transformPlug plug).translate.children editable
    let editable := scanChildren (g.transformPlug plug).rotate.children editable
    editable

/-- `CameraTool::preRenderEnd`. -/
def preRenderEnd (h : Host) (w : World) : World :=
  let (selection, w) := cameraSelection h w
  let editable := selectionEditable w.graph selection
  let cameraEditable := !w.view.lookThroughEnabled || editable
  let w := { w with viewport := { w.viewport with cameraEditable := cameraEditable }
                    log := w.log ++ [Effect.setCameraEditable cameraEditable] }
  if editable then
    let centerOfInterest := getCameraCenterOfInterest h w selection.path
    { w with viewport := { w.viewport with centerOfInterest := centerOfInterest }
             m_viewportCameraChangedBlocked := false
             log := w.log ++ [Effect.setCenterOfInterest centerOfInterest,
                              Effect.unblockCameraChanged] }
  else
    w

/-- The value an `int` holds after being assigned the arithmetic result `i`:
the 32 bit two-complement representative, so that the successor of `INT_MAX`
is `INT_MIN`. -/
def wrapInt (i : Int) : Int :=
  (i + 2147483648) % 4294967296 - 2147483648

/-- `CameraTool::viewportDragBegin`: the returned pointer (`none` is `nullptr`)
and the tool afterwards. The format `"CameraTool%1%Drag%2%"` is fed `this` and
the old value of `m_dragId`, printed in decimal with its sign; `m_dragId++`
then stores the successor. -/
def viewportDragBegin (h : Host) (w : World) : Option Nat × World :=
  (none, { w with m_undoGroup := "CameraTool" ++ h.thisStr ++ "Drag" ++ toString w.m_dragId
                  m_dragId := wrapInt (w.m_dragId + 1) })

/-- `CameraTool::viewportWheel`: the format `"CameraTool%1%Wheel"` is fed `this`. -/
def viewportWheel (h : Host) (w : World) : Bool × World :=
  (false, { w with m_undoGroup := "CameraTool" ++ h.thisStr ++ "Wheel" })

/-- `CameraTool::viewportKeyPress`. -/
def viewportKeyPress (w : World) : Bool × World :=
  (false, { w with m_undoGroup := "" })

/-- `CameraTool::viewportButtonPress`. -/
def viewportButtonPress (w : World) : Bool × World :=
  (false, { w with m_undoGroup := "" })

/-- The do half of an enacted action. -/
def CoiAction.doIt (h : Host) (a : CoiAction) (w : World) : World :=
  setCameraCenterOfInterest h a.camera a.doValue w

/-- The undo half of an enacted action. -/
def CoiAction.undoIt (h : Host) (a : CoiAction) (w : World) : World :=
  setCameraCenterOfInterest h a.camera a.undoValue w

/-- `V3fPlug::setValue` on the rotate plug of a transform plug. -/
def setRotate (g : Graph) (plug : Nat) (value : V3f) : Graph :=
  { transformPlug := fun p =>
      if p = plug then
        { g.transformPlug p with rotate := { (g.transformPlug p).rotate with value := value } }
      else g.transformPlug p }

/-- `V3fPlug::setValue` on the translate plug of a transform plug. -/
def setTranslate (g : Graph) (plug : Nat) (value : V3f) : Graph :=
  { transformPlug := fun p =>
      if p = plug then
        { g.transformPlug p with
            translate := { (g.transformPlug p).translate with value := value } }
      else g.transformPlug p }

/-- The arguments of `Action::enact` in `viewportCameraChanged`: both values are
read when the call is made, before the do half runs. -/
def coiAction (h : Host) (w : World) (selection : Selection) : CoiAction :=
  { camera := selection.path
    doValue := w.viewport.centerOfInterest
    undoValue := getCameraCenterOfInterest h w selection.path }

/-- The local `transformSpaceMatrix` of `viewportCameraChanged`. -/
def transformSpaceMatrix (h : Host) (w : World) (selection : Selection) : M44f :=
  h.m44Mul w.viewport.cameraTransform (h.sceneToTransformSpace w.graph selection)

/-- The local `r` of `viewportCameraChanged`, for the transform plug `plug`. -/
def rotation (h : Host) (w : World) (selection : Selection) (plug : Nat) : V3f :=
  let e := h.eulerExtract (transformSpaceMatrix h w selection)
  let e := h.makeNear e (h.degreesToRadians (w.graph.transformPlug plug).rotate.value)
  h.radiansToDegrees e

/-- `CameraTool::viewportCameraChanged`. `Action::enact` runs the do half at
once and keeps both halves; the `UndoScope` ends when the function returns. -/
def viewportCameraChanged (h : Host) (w : World) : World :=
  let (selection, w) := cameraSelection h w
  match selection.transformPlug with
  | none => w
  | some plug =>
    if !w.viewport.cameraEditable then
      w
    else
      let viewportCameraTransform := w.viewport.cameraTransform
      if h.m44Eq (h.sceneTransform w.graph selection) viewportCameraTransform then
        w
      else
        let m := transformSpaceMatrix h w selection
        let r := rotation h w selection plug
        let w := { w with log := w.log ++ [Effect.undoScopeBegin plug w.m_undoGroup] }
        let w := { w with graph := setRotate w.graph plug r
                          log := w.log ++ [Effect.setRotate plug r] }
        let w := { w with graph := setTranslate w.graph plug (h.translation m)
                          log := w.log ++ [Effect.setTranslate plug (h.translation m)] }
        let action := coiAction h w selection
        let w := action.doIt h { w with log := w.log ++ [Effect.enact plug action] }
        { w with log := w.log ++ [Effect.undoScopeEnd] }

/-! ## Signals

The constructor connects each signal of the view and of the viewport gadget to
one member function. -/

/-- A signal the tool is connected to, named after the slot it runs. The
camera-changed signal is emitted by the viewport gadget after its camera has
moved, and carries the new camera transform and center of interest. -/
inductive Event where
  | contextChanged (name : String)
  | plugDirtied (plug : PlugRef)
  | preRenderBegin
  | preRenderEnd
  | viewportDragBegin
  | viewportWheel
  | viewportKeyPress
  | viewportButtonPress
  | viewportCameraChanged (cameraTransform : M44f) (centerOfInterest : F32)
deriving DecidableEq, Repr

/-- The viewport gadget moving its camera, before it emits the camera-changed
signal. -/
def moveCamera (cameraTransform : M44f) (centerOfInterest : F32) (w : World) : World :=
  { w with viewport := { w.viewport with cameraTransform := cameraTransform
                                         centerOfInterest := centerOfInterest } }

/-- The slot run for a signal; the value a slot returns is dropped here. The
slot of the camera-changed signal is reached through
`m_viewportCameraChangedConnection` and does not run while that connection is
blocked. -/
def dispatch (h : Host) : Event → World → World
  | Event.contextChanged name, w => contextChanged name w
  | Event.plugDirtied plug, w => plugDirtied plug w
  | Event.preRenderBegin, w => preRenderBegin w
  | Event.preRenderEnd, w => preRenderEnd h w
  | Event.viewportDragBegin, w => (viewportDragBegin h w).2
  | Event.viewportWheel, w => (viewportWheel h w).2
  | Event.viewportKeyPress, w => (viewportKeyPress w).2
  | Event.viewportButtonPress, w => (viewportButtonPress w).2
  | Event.viewportCameraChanged cameraTransform centerOfInterest, w =>
    let w := moveCamera cameraTransform centerOfInterest w
    if w.m_viewportCameraChangedBlocked then
      w
    else
      viewportCameraChanged h w

/-- The tool after a sequence of signals, oldest first. -/
def run (h : Host) : List Event → World → World
  | [], w => w
  | e :: rest, w => run h rest (dispatch h e w)

/-- A stand-in for `ScenePlug::pathToString`: `/` for the empty path, otherwise
every name preceded by `/`. -/
def joinPath : ScenePath → String
  | [] => "/"
  | names => names.foldl (fun s name => s ++ "/" ++ name) ""

/-- A stand-in for `ScenePlug::stringToPath` on strings without a slash: no
name for the empty string, the string as the only name otherwise. -/
def splitPath (s : String) : ScenePath :=
  if s.isEmpty then [] else [s]

/-- A host with simple stand-ins for the library routines: matrices compare
cell by cell, the transform space is the scene space, the translation is the
last row, and `makeNear` keeps the extracted angles. -/
def demoHost : Host :=
  { pathToString := joinPath
    stringToPath := splitPath
    makeSelection := fun _ scene path context =>
      { scene := some scene, path := path, context := some context, transformPlug := some 7 }
    sceneToTransformSpace := fun _ _ => ⟨[]⟩
    sceneTransform := fun _ _ => ⟨[]⟩
    m44Eq := fun a b => decide (a = b)
    m44Mul := fun a _ => a
    translation := fun m => ⟨m.cells.getD 12 ⟨0⟩, m.cells.getD 13 ⟨0⟩, m.cells.getD 14 ⟨0⟩⟩
    eulerExtract := fun m => ⟨m.cells.getD 0 ⟨0⟩, m.cells.getD 1 ⟨0⟩, m.cells.getD 2 ⟨0⟩⟩
    makeNear := fun e _ => e
    degreesToRadians := fun v => v
    radiansToDegrees := fun v => v
    thisStr := "0x55d0" }

/-- A graph in which every transform plug has three settable, writable
children under translate and under rotate. -/
def demoGraph : Graph :=
  { transformPlug := fun _ =>
      { translate := { value := ⟨⟨0⟩, ⟨0⟩, ⟨0⟩⟩
                       children := [⟨true, false⟩, ⟨true, false⟩, ⟨true, false⟩] }
        rotate := { value := ⟨⟨0⟩, ⟨0⟩, ⟨0⟩⟩
                    children := [⟨true, false⟩, ⟨true, false⟩, ⟨true, false⟩] } } }

/-- A graph in which the second child of every rotate plug is read-only. -/
def lockedGraph : Graph :=
  { transformPlug := fun _ =>
      { translate := { value := ⟨⟨0⟩, ⟨0⟩, ⟨0⟩⟩
                       children := [⟨true, false⟩, ⟨true, false⟩, ⟨true, false⟩] }
        rotate := { value := ⟨⟨0⟩, ⟨0⟩, ⟨0⟩⟩
                    children := [⟨true, false⟩, ⟨true, true⟩, ⟨true, false⟩] } } }

/-- A view looking through the camera `cam`. -/
def demoView : View :=
  { active := true, lookThroughEnabled := true, lookThroughCamera := "cam"
    renderCamera := none, scenePlug := 1, context := 2 }

/-- A viewport whose camera is editable, with center of interest `2.0f` and a
camera transform that differs from the scene transform of `demoHost`. -/
def demoViewport : Viewport :=
  { cameraEditable := true, centerOfInterest := ⟨0x40000000⟩
    cameraTransform := ⟨[⟨1⟩, ⟨2⟩, ⟨3⟩]⟩ }

/-- A freshly constructed tool, marked dirty, over the demo view and graph. -/
def demoWorld : World := construct true demoView demoViewport demoGraph

/-- A freshly constructed tool, marked dirty, over the graph with a read-only
rotate component. -/
def lockedWorld : World := construct true demoView demoViewport lockedGraph

/-! ## The center of interest map -/

theorem mapFind_mapAssign_same (m : CameraCentersOfInterest) (key : String) (value : F32) :
    mapFind (mapAssign m key value) key = some value := by
  induction m with
  | nil => simp [mapAssign, mapFind]
  | cons e rest ih =>
    obtain ⟨k, v⟩ := e
    by_cases hk : k = key
    · simp [mapAssign, mapFind, hk]
    · simp [mapAssign, mapFind, hk, ih]

theorem mapFind_mapAssign_other (m : CameraCentersOfInterest) (key other : String)
    (value : F32) (hne : other ≠ key) :
    mapFind (mapAssign m key value) other = mapFind m other := by
  induction m with
  | nil =>
    have hne2 : ¬ key = other := fun e => hne e.symm
    simp [mapAssign, mapFind, hne2]
  | cons e rest ih =>
    obtain ⟨k, v⟩ := e
    by_cases hk : k = key
    · have hko : ¬ k = other := fun e => hne (e.symm.trans hk)
      simp [mapAssign, mapFind, hk, hko]
      simp [← hk, hko]
    · by_cases ho : k = other
      · subst ho
        simp [mapAssign, mapFind, hk]
      · simp [mapAssign, mapFind, hk, ho, ih]

theorem get_set_same (h : Host) (w : World) (p : ScenePath) (v : F32) :
    getCameraCenterOfInterest h (setCameraCenterOfInterest h p v w) p = v := by
  simp [getCameraCenterOfInterest, setCameraCenterOfInterest, mapFind_mapAssign_same]

theorem get_set_other (h : Host) (w : World) (p q : ScenePath) (v : F32)
    (hne : h.pathToString q ≠ h.pathToString p) :
    getCameraCenterOfInterest h (setCameraCenterOfInterest h p v w) q
      = getCameraCenterOfInterest h w q := by
  simp [getCameraCenterOfInterest, setCameraCenterOfInterest,
    mapFind_mapAssign_other _ _ _ _ hne]

theorem get_eq_of_key_eq (h : Host) (w : World) (p q : ScenePath)
    (hk : h.pathToString q = h.pathToString p) :
    getCameraCenterOfInterest h w q = getCameraCenterOfInterest h w p := by
  simp [getCameraCenterOfInterest, hk]

/-- C1: when `m_cameraCentersOfInterest` has no entry under `pathToString( p )`,
`getCameraCenterOfInterest( p )` returns exactly `1.0f`. -/
theorem getCameraCenterOfInterest_absent (h : Host) (w : World) (p : ScenePath)
    (habsent : mapFind w.m_cameraCentersOfInterest (h.pathToString p) = none) :
    getCameraCenterOfInterest h w p = F32.one := by
  simp [getCameraCenterOfInterest, habsent]

theorem getCameraCenterOfInterest_absent_witness :
    mapFind demoWorld.m_cameraCentersOfInterest (demoHost.pathToString ["cam"]) = none ∧
    getCameraCenterOfInterest demoHost demoWorld ["cam"] = F32.one :=
  ⟨rfl, getCameraCenterOfInterest_absent demoHost demoWorld ["cam"] rfl⟩

/-- C2: after `setCameraCenterOfInterest( p, v )`, `getCameraCenterOfInterest( p )`
returns `v`, and for every path `q` whose string key differs from that of `p`,
`getCameraCenterOfInterest( q )` returns what it returned before the set. -/
theorem centerOfInterest_roundTrip (h : Host) (w : World) (p : ScenePath) (v : F32) :
    getCameraCenterOfInterest h (setCameraCenterOfInterest h p v w) p = v ∧
    ∀ q : ScenePath, h.pathToString q ≠ h.pathToString p →
      getCameraCenterOfInterest h (setCameraCenterOfInterest h p v w) q
        = getCameraCenterOfInterest h w q :=
  ⟨get_set_same h w p v, fun q hne => get_set_other h w p q v hne⟩

theorem centerOfInterest_roundTrip_witness :
    demoHost.pathToString ["light"] ≠ demoHost.pathToString ["cam"] ∧
    getCameraCenterOfInterest demoHost
      (setCameraCenterOfInterest demoHost ["cam"] ⟨5⟩ demoWorld) ["cam"] = ⟨5⟩ ∧
    getCameraCenterOfInterest demoHost
      (setCameraCenterOfInterest demoHost ["cam"] ⟨5⟩ demoWorld) ["light"]
        = getCameraCenterOfInterest demoHost demoWorld ["light"] :=
  ⟨by decide,
   (centerOfInterest_roundTrip demoHost demoWorld ["cam"] ⟨5⟩).1,
   (centerOfInterest_roundTrip demoHost demoWorld ["cam"] ⟨5⟩).2 ["light"] (by decide)⟩

/-! ## The cached camera selection -/

theorem cameraSelection_snd (h : Host) (w : World) :
    (cameraSelection h w).2 = { w with m_cameraSelection := (cameraSelection h w).1 } := by
  cases w with
  | mk dirty stored group id cois blocked view viewport graph log =>
    cases dirty
    · rfl
    · simp only [cameraSelection]
      split_ifs <;> rfl

theorem cameraSelection_dirty (h : Host) (w : World) :
    (cameraSelection h w).2.m_cameraSelectionDirty = w.m_cameraSelectionDirty := by
  rw [cameraSelection_snd]

theorem cameraSelection_stored (h : Host) (w : World) :
    (cameraSelection h w).2.m_cameraSelection = (cameraSelection h w).1 := by
  rw [cameraSelection_snd]

/-! ## Writing the viewport camera back to the graph -/

theorem viewportCameraChanged_skip (h : Host) (w : World)
    (hskip : (cameraSelection h w).1.transformPlug = none ∨
      w.viewport.cameraEditable = false ∨
      h.m44Eq (h.sceneTransform w.graph (cameraSelection h w).1) w.viewport.cameraTransform
        = true) :
    viewportCameraChanged h w = (cameraSelection h w).2 := by
  have hs := cameraSelection_snd h w
  unfold viewportCameraChanged
  rcases hcs : cameraSelection h w with ⟨sel, w1⟩
  rw [hcs] at hs hskip
  simp only at hs hskip
  subst hs
  simp only
  cases hp : sel.transformPlug with
  | none => rfl
  | some plug =>
    rcases hskip with h1 | h2 | h3
    · rw [hp] at h1; cases h1
    · simp [h2]
    · by_cases he : w.viewport.cameraEditable = true
      · simp [he, h3]
      · simp [he]

theorem viewportCameraChanged_edit (h : Host) (w : World) (plug : Nat)
    (hplug : (cameraSelection h w).1.transformPlug = some plug)
    (hedit : w.viewport.cameraEditable = true)
    (hdiff : h.m44Eq (h.sceneTransform w.graph (cameraSelection h w).1)
      w.viewport.cameraTransform = false) :
    viewportCameraChanged h w =
      { w with
        m_cameraSelection := (cameraSelection h w).1
        graph := setTranslate (setRotate w.graph plug (rotation h w (cameraSelection h w).1 plug))
          plug (h.translation (transformSpaceMatrix h w (cameraSelection h w).1))
        m_cameraCentersOfInterest :=
          mapAssign w.m_cameraCentersOfInterest (h.pathToString (cameraSelection h w).1.path)
            w.viewport.centerOfInterest
        log := w.log ++
          [Effect.undoScopeBegin plug w.m_undoGroup,
           Effect.setRotate plug (rotation h w (cameraSelection h w).1 plug),
           Effect.setTranslate plug
             (h.translation (transformSpaceMatrix h w (cameraSelection h w).1)),
           Effect.enact plug (coiAction h w (cameraSelection h w).1),
           Effect.undoScopeEnd] } := by
  have hs := cameraSelection_snd h w
  unfold viewportCameraChanged
  rcases hcs : cameraSelection h w with ⟨sel, w1⟩
  rw [hcs] at hs hplug hdiff
  simp only at hs hplug hdiff
  subst hs
  simp only [hplug, hedit, hdiff]
  simp [CoiAction.doIt, setCameraCenterOfInterest, coiAction, transformSpaceMatrix, rotation,
    getCameraCenterOfInterest]

theorem get_congr (h : Host) (w1 w2 : World) (q : ScenePath)
    (hm : w1.m_cameraCentersOfInterest = w2.m_cameraCentersOfInterest) :
    getCameraCenterOfInterest h w1 q = getCameraCenterOfInterest h w2 q := by
  simp [getCameraCenterOfInterest, hm]

theorem set_congr (h : Host) (w1 w2 : World) (p : ScenePath) (v : F32)
    (hm : w1.m_cameraCentersOfInterest = w2.m_cameraCentersOfInterest) :
    (setCameraCenterOfInterest h p v w1).m_cameraCentersOfInterest
      = (setCameraCenterOfInterest h p v w2).m_cameraCentersOfInterest := by
  simp [setCameraCenterOfInterest, hm]

theorem get_undo_do (h : Host) (w : World) (p q : ScenePath) (c : F32) :
    getCameraCenterOfInterest h
      (setCameraCenterOfInterest h p (getCameraCenterOfInterest h w p)
        (setCameraCenterOfInterest h p c w)) q
      = getCameraCenterOfInterest h w q := by
  by_cases hk : h.pathToString q = h.pathToString p
  · rw [get_eq_of_key_eq h _ p q hk, get_set_same, get_eq_of_key_eq h w p q hk]
  · rw [get_set_other h _ p q _ hk, get_set_other h _ p q _ hk]

/-- C9: when the camera selection has no transform plug, or the viewport camera
is not editable, or the scene transform at the selected path equals the viewport
camera transform, `viewportCameraChanged` sets no plug, opens no undo scope and
enacts no action: the graph, the center of interest map and the log of host
calls are what they were. -/
theorem viewportCameraChanged_unchanged (h : Host) (w : World)
    (hskip : (cameraSelection h w).1.transformPlug = none ∨
      w.viewport.cameraEditable = false ∨
      h.m44Eq (h.sceneTransform w.graph (cameraSelection h w).1) w.viewport.cameraTransform
        = true) :
    (viewportCameraChanged h w).graph = w.graph ∧
    (viewportCameraChanged h w).m_cameraCentersOfInterest = w.m_cameraCentersOfInterest ∧
    (viewportCameraChanged h w).log = w.log := by
  rw [viewportCameraChanged_skip h w hskip, cameraSelection_snd]
  exact ⟨rfl, rfl, rfl⟩

theorem viewportCameraChanged_unchanged_witness :
    ((cameraSelection demoHost
        { demoWorld with viewport := { demoViewport with cameraEditable := false } }).1.transformPlug
        = some 7 ∧
      ({ demoWorld with viewport := { demoViewport with cameraEditable := false } } : World
        ).viewport.cameraEditable = false) ∧
    (viewportCameraChanged demoHost
        { demoWorld with viewport := { demoViewport with cameraEditable := false } }).graph
      = demoWorld.graph ∧
    (viewportCameraChanged demoHost
        { demoWorld with viewport := { demoViewport with cameraEditable := false } }
      ).m_cameraCentersOfInterest = [] ∧
    (viewportCameraChanged demoHost
        { demoWorld with viewport := { demoViewport with cameraEditable := false } }).log = [] :=
  ⟨⟨by decide, rfl⟩,
   viewportCameraChanged_unchanged demoHost
     { demoWorld with viewport := { demoViewport with cameraEditable := false } }
     (Or.inr (Or.inl rfl))⟩

/-- C5: when the camera selection has a transform plug, the viewport camera is
editable and the scene transform at the selected path differs from the viewport
camera transform, `viewportCameraChanged` sets the translate plug to the
translation of `M = viewportCameraTransform * sceneToTransformSpace` and the
rotate plug to the Euler angles extracted from that same `M` (brought near the
current rotate value by `makeNear`) converted to degrees; no other transform
plug changes; and the host calls made are, in order, the opening of an undo
scope with `m_undoGroup` as merge group, the two `setValue` calls, the
`Action::enact` of the center of interest action and the end of the scope. -/
theorem viewportCameraChanged_writeBack (h : Host) (w : World) (plug : Nat)
    (hplug : (cameraSelection h w).1.transformPlug = some plug)
    (hedit : w.viewport.cameraEditable = true)
    (hdiff : h.m44Eq (h.sceneTransform w.graph (cameraSelection h w).1)
      w.viewport.cameraTransform = false) :
    let selection := (cameraSelection h w).1
    let m := h.m44Mul w.viewport.cameraTransform (h.sceneToTransformSpace w.graph selection)
    let e := h.makeNear (h.eulerExtract m)
      (h.degreesToRadians (w.graph.transformPlug plug).rotate.value)
    ((viewportCameraChanged h w).graph.transformPlug plug).translate.value = h.translation m ∧
    ((viewportCameraChanged h w).graph.transformPlug plug).rotate.value
      = h.radiansToDegrees e ∧
    (∀ other : Nat, other ≠ plug →
      (viewportCameraChanged h w).graph.transformPlug other = w.graph.transformPlug other) ∧
    (viewportCameraChanged h w).log = w.log ++
      [Effect.undoScopeBegin plug w.m_undoGroup,
       Effect.setRotate plug (h.radiansToDegrees e),
       Effect.setTranslate plug (h.translation m),
       Effect.enact plug
         { camera := selection.path
           doValue := w.viewport.centerOfInterest
           undoValue := getCameraCenterOfInterest h w selection.path },
       Effect.undoScopeEnd] := by
  intro selection m e
  rw [viewportCameraChanged_edit h w plug hplug hedit hdiff]
  refine ⟨?_, ?_, ?_, ?_⟩
  · simp [setTranslate, transformSpaceMatrix, selection, m]
  · simp [setTranslate, setRotate, rotation, transformSpaceMatrix, selection, m, e]
  · intro other hne
    simp [setTranslate, setRotate, hne]
  · simp [rotation, transformSpaceMatrix, coiAction, selection, m, e]

theorem viewportCameraChanged_writeBack_witness :
    ((cameraSelection demoHost demoWorld).1.transformPlug = some 7 ∧
      demoWorld.viewport.cameraEditable = true ∧
      demoHost.m44Eq (demoHost.sceneTransform demoWorld.graph (cameraSelection demoHost demoWorld).1)
        demoWorld.viewport.cameraTransform = false) ∧
    ((viewportCameraChanged demoHost demoWorld).graph.transformPlug 7).translate.value
      = ⟨⟨0⟩, ⟨0⟩, ⟨0⟩⟩ ∧
    ((viewportCameraChanged demoHost demoWorld).graph.transformPlug 7).rotate.value
      = ⟨⟨1⟩, ⟨2⟩, ⟨3⟩⟩ ∧
    (viewportCameraChanged demoHost demoWorld).log =
      [Effect.undoScopeBegin 7 "",
       Effect.setRotate 7 ⟨⟨1⟩, ⟨2⟩, ⟨3⟩⟩,
       Effect.setTranslate 7 ⟨⟨0⟩, ⟨0⟩, ⟨0⟩⟩,
       Effect.enact 7 { camera := ["cam"], doValue := ⟨0x40000000⟩, undoValue := F32.one },
       Effect.undoScopeEnd] :=
  have hw := viewportCameraChanged_writeBack demoHost demoWorld 7 (by decide) rfl (by decide)
  ⟨⟨by decide, rfl, by decide⟩, hw.1, hw.2.1, hw.2.2.2⟩

/-- C7: for every tool state and selection, running the do half of the action
that `viewportCameraChanged` enacts (set the center of interest of the selected
path to that of the viewport) and then its undo half (set it to what
`getCameraCenterOfInterest` returned when the action was built) leaves
`getCameraCenterOfInterest( q )` as it was for every path `q`, also when the
selected path had no entry; and when `viewportCameraChanged` writes back, the
action it enacts is that one, its do half has run, and running the undo half on
the resulting tool restores `getCameraCenterOfInterest( q )`. -/
theorem undo_restores_centerOfInterest (h : Host) (w : World) (selection : Selection)
    (q : ScenePath) :
    getCameraCenterOfInterest h
        ((coiAction h w selection).undoIt h ((coiAction h w selection).doIt h w)) q
      = getCameraCenterOfInterest h w q ∧
    (∀ plug : Nat, (cameraSelection h w).1 = selection →
      selection.transformPlug = some plug →
      w.viewport.cameraEditable = true →
      h.m44Eq (h.sceneTransform w.graph selection) w.viewport.cameraTransform = false →
      Effect.enact plug (coiAction h w selection) ∈ (viewportCameraChanged h w).log ∧
      (viewportCameraChanged h w).m_cameraCentersOfInterest
        = ((coiAction h w selection).doIt h w).m_cameraCentersOfInterest ∧
      getCameraCenterOfInterest h
          ((coiAction h w selection).undoIt h (viewportCameraChanged h w)) q
        = getCameraCenterOfInterest h w q) := by
  have hfirst : getCameraCenterOfInterest h
        ((coiAction h w selection).undoIt h ((coiAction h w selection).doIt h w)) q
      = getCameraCenterOfInterest h w q := by
    simp only [CoiAction.undoIt, CoiAction.doIt, coiAction]
    exact get_undo_do h w selection.path q w.viewport.centerOfInterest
  refine ⟨hfirst, ?_⟩
  intro plug hsel hplug hedit hdiff
  subst hsel
  have hw := viewportCameraChanged_edit h w plug hplug hedit hdiff
  have hmap : (viewportCameraChanged h w).m_cameraCentersOfInterest
      = ((coiAction h w (cameraSelection h w).1).doIt h w).m_cameraCentersOfInterest := by
    rw [hw]
    simp [CoiAction.doIt, coiAction, setCameraCenterOfInterest]
  refine ⟨?_, hmap, ?_⟩
  · rw [hw]
    simp
  · rw [← hfirst]
    apply get_congr
    simp only [CoiAction.undoIt]
    exact set_congr h _ _ _ _ hmap

theorem undo_restores_centerOfInterest_witness :
    ((cameraSelection demoHost demoWorld).1
        = { scene := some 1, path := ["cam"], context := some 2, transformPlug := some 7 } ∧
      demoWorld.viewport.cameraEditable = true) ∧
    mapFind (viewportCameraChanged demoHost demoWorld).m_cameraCentersOfInterest "/cam"
      = some ⟨0x40000000⟩ ∧
    getCameraCenterOfInterest demoHost
        ((coiAction demoHost demoWorld
            { scene := some 1, path := ["cam"], context := some 2, transformPlug := some 7 }
          ).undoIt demoHost (viewportCameraChanged demoHost demoWorld)) ["cam"]
      = F32.one :=
  have hw := (undo_restores_centerOfInterest demoHost demoWorld
    { scene := some 1, path := ["cam"], context := some 2, transformPlug := some 7 }
    ["cam"]).2 7 (by decide) rfl rfl (by decide)
  ⟨⟨by decide, rfl⟩, by rw [hw.2.1]; decide, hw.2.2⟩

/-! ## Edit gating in `preRenderEnd` -/

theorem scanChildren_eq_true (children : List ValuePlug) (editable : Bool) :
    scanChildren children editable = true ↔
      editable = true ∧ ∀ c ∈ children, c.settable = true ∧ c.readOnly = false := by
  induction children with
  | nil => simp [scanChildren]
  | cons c rest ih =>
    cases hs : c.settable <;> cases hr : c.readOnly <;> simp [scanChildren, hs, hr, ih]

theorem selectionEditable_eq_true (g : Graph) (selection : Selection) :
    selectionEditable g selection = true ↔
      ∃ plug, selection.transformPlug = some plug ∧
        (∀ c ∈ (g.transformPlug plug).translate.children,
          c.settable = true ∧ c.readOnly = false) ∧
        (∀ c ∈ (g.transformPlug plug).rotate.children,
          c.settable = true ∧ c.readOnly = false) := by
  unfold selectionEditable
  cases hp : selection.transformPlug with
  | none => simp
  | some plug =>
    simp only [scanChildren_eq_true, Option.some.injEq, exists_eq_left']
    tauto

theorem preRenderEnd_editable (h : Host) (w : World)
    (he : selectionEditable w.graph (cameraSelection h w).1 = true) :
    preRenderEnd h w =
      { w with
        m_cameraSelection := (cameraSelection h w).1
        viewport := { w.viewport with
          cameraEditable := true
          centerOfInterest := getCameraCenterOfInterest h w (cameraSelection h w).1.path }
        m_viewportCameraChangedBlocked := false
        log := w.log ++
          [Effect.setCameraEditable true,
           Effect.setCenterOfInterest (getCameraCenterOfInterest h w (cameraSelection h w).1.path),
           Effect.unblockCameraChanged] } := by
  have hs := cameraSelection_snd h w
  unfold preRenderEnd
  rcases hcs : cameraSelection h w with ⟨sel, w1⟩
  rw [hcs] at hs he
  simp only at hs he
  subst hs
  simp [he, getCameraCenterOfInterest]

theorem preRenderEnd_locked (h : Host) (w : World)
    (he : selectionEditable w.graph (cameraSelection h w).1 = false) :
    preRenderEnd h w =
      { w with
        m_cameraSelection := (cameraSelection h w).1
        viewport := { w.viewport with cameraEditable := !w.view.lookThroughEnabled }
        log := w.log ++ [Effect.setCameraEditable (!w.view.lookThroughEnabled)] } := by
  have hs := cameraSelection_snd h w
  unfold preRenderEnd
  rcases hcs : cameraSelection h w with ⟨sel, w1⟩
  rw [hcs] at hs he
  simp only at hs he
  subst hs
  simp [he]

/-- C3: `preRenderEnd` sets the viewport camera editable exactly when look-through
is disabled, or the camera selection has a transform plug and every child of its
translate plug and of its rotate plug is settable and not read-only. When that
second condition holds the viewport center of interest is set to the stored one
and the camera-changed connection is unblocked; when it fails (no transform
plug, or one child that is not settable or is read-only) the only host call is
`setCameraEditable`: the center of interest is not set and the connection is
not unblocked. -/
theorem preRenderEnd_gating (h : Host) (w : World) :
    let selection := (cameraSelection h w).1
    let writable : Prop :=
      ∃ plug, selection.transformPlug = some plug ∧
        (∀ c ∈ (w.graph.transformPlug plug).translate.children,
          c.settable = true ∧ c.readOnly = false) ∧
        (∀ c ∈ (w.graph.transformPlug plug).rotate.children,
          c.settable = true ∧ c.readOnly = false)
    ((preRenderEnd h w).viewport.cameraEditable = true ↔
      (w.view.lookThroughEnabled = false ∨ writable)) ∧
    (∃ editable : Bool, (editable = true ↔ (w.view.lookThroughEnabled = false ∨ writable)) ∧
      Effect.setCameraEditable editable ∈ (preRenderEnd h w).log) ∧
    (writable →
      (preRenderEnd h w).log = w.log ++
        [Effect.setCameraEditable true,
         Effect.setCenterOfInterest (getCameraCenterOfInterest h w selection.path),
         Effect.unblockCameraChanged] ∧
      (preRenderEnd h w).viewport.centerOfInterest
        = getCameraCenterOfInterest h w selection.path ∧
      (preRenderEnd h w).m_viewportCameraChangedBlocked = false) ∧
    (¬ writable →
      (preRenderEnd h w).log = w.log ++ [Effect.setCameraEditable (!w.view.lookThroughEnabled)] ∧
      (preRenderEnd h w).viewport.centerOfInterest = w.viewport.centerOfInterest ∧
      (preRenderEnd h w).m_viewportCameraChangedBlocked = w.m_viewportCameraChangedBlocked) := by
  intro selection writable
  have hiff : selectionEditable w.graph selection = true ↔ writable :=
    selectionEditable_eq_true w.graph selection
  by_cases he : selectionEditable w.graph selection = true
  · have hw : writable := hiff.mp he
    have hpre := preRenderEnd_editable h w he
    refine ⟨?_, ⟨true, ?_, ?_⟩, ?_, ?_⟩
    · rw [hpre]
      simp [hw]
    · simp [hw]
    · rw [hpre]
      simp
    · intro _
      rw [hpre]
      exact ⟨rfl, rfl, rfl⟩
    · intro hn
      exact absurd hw hn
  · have hw : ¬ writable := fun hw => he (hiff.mpr hw)
    have hf : selectionEditable w.graph (cameraSelection h w).1 = false := by
      simpa using he
    have hpre := preRenderEnd_locked h w hf
    refine ⟨?_, ⟨!w.view.lookThroughEnabled, ?_, ?_⟩, ?_, ?_⟩
    · rw [hpre]
      simp [hw]
    · simp [hw]
    · rw [hpre]
      simp
    · intro hy
      exact absurd hy hw
    · intro _
      rw [hpre]
      exact ⟨rfl, rfl, rfl⟩

theorem lockedWorld_not_writable :
    ¬ ∃ plug, (cameraSelection demoHost lockedWorld).1.transformPlug = some plug ∧
        (∀ c ∈ (lockedWorld.graph.transformPlug plug).translate.children,
          c.settable = true ∧ c.readOnly = false) ∧
        (∀ c ∈ (lockedWorld.graph.transformPlug plug).rotate.children,
          c.settable = true ∧ c.readOnly = false) := by
  rintro ⟨plug, -, -, hr⟩
  have hbad := (hr ⟨true, true⟩ (by simp [lockedWorld, construct, lockedGraph])).2
  simp at hbad

theorem demoWorld_writable :
    ∃ plug, (cameraSelection demoHost demoWorld).1.transformPlug = some plug ∧
        (∀ c ∈ (demoWorld.graph.transformPlug plug).translate.children,
          c.settable = true ∧ c.readOnly = false) ∧
        (∀ c ∈ (demoWorld.graph.transformPlug plug).rotate.children,
          c.settable = true ∧ c.readOnly = false) := by
  refine ⟨7, by decide, ?_, ?_⟩ <;>
  · intro c hc
    simp [demoWorld, construct, demoGraph] at hc
    simp [hc]

theorem preRenderEnd_gating_witness :
    ((preRenderEnd demoHost lockedWorld).viewport.cameraEditable = false ∧
      (preRenderEnd demoHost lockedWorld).log = [Effect.setCameraEditable false] ∧
      (preRenderEnd demoHost lockedWorld).viewport.centerOfInterest = ⟨0x40000000⟩ ∧
      (preRenderEnd demoHost lockedWorld).m_viewportCameraChangedBlocked = false) ∧
    ((preRenderEnd demoHost demoWorld).log =
        [Effect.setCameraEditable true, Effect.setCenterOfInterest F32.one,
         Effect.unblockCameraChanged] ∧
      (preRenderEnd demoHost demoWorld).viewport.centerOfInterest = F32.one ∧
      (preRenderEnd demoHost demoWorld).m_viewportCameraChangedBlocked = false) :=
  have hl := (preRenderEnd_gating demoHost lockedWorld).2.2.2 lockedWorld_not_writable
  ⟨⟨by decide, hl.1, hl.2.1, hl.2.2⟩,
   (preRenderEnd_gating demoHost demoWorld).2.2.1 demoWorld_writable⟩

/-! ## Undo merge groups -/

theorem wrapInt_overflow : wrapInt (2147483647 + 1) = -2147483648 := by decide

theorem blocked_slot_does_not_run :
    (run demoHost
      [Event.viewportDragBegin, Event.preRenderBegin,
        Event.viewportCameraChanged ⟨[⟨4⟩, ⟨5⟩, ⟨6⟩]⟩ ⟨0x40400000⟩]
      demoWorld).log = [Effect.blockCameraChanged] := by
  decide

/-! ## The dirty flag of the cached selection -/

theorem cameraSelection_recomputes (h : Host) (w : World) (stored : Selection)
    (hd : w.m_cameraSelectionDirty = true) :
    (cameraSelection h { w with m_cameraSelection := stored }).1 = (cameraSelection h w).1 := by
  simp [cameraSelection, hd, cameraPath]

/-- C4: on a tool constructed clean and then marked dirty by
`contextChanged( "frame" )`, `cameraSelection()` computes the selection of the
camera `cam` and returns with `m_cameraSelectionDirty` still true; a second
call, with no signal in between, finds the flag true again and leaves it true,
so it takes the recomputing branch instead of returning the stored selection. -/
theorem cameraSelection_stays_dirty :
    (construct false demoView demoViewport demoGraph).m_cameraSelectionDirty = false ∧
    (contextChanged "frame"
      (construct false demoView demoViewport demoGraph)).m_cameraSelectionDirty = true ∧
    (cameraSelection demoHost (contextChanged "frame"
      (construct false demoView demoViewport demoGraph))).1
      = { scene := some 1, path := ["cam"], context := some 2, transformPlug := some 7 } ∧
    (cameraSelection demoHost (contextChanged "frame"
      (construct false demoView demoViewport demoGraph))).2.m_cameraSelectionDirty = true ∧
    (cameraSelection demoHost (cameraSelection demoHost (contextChanged "frame"
      (construct false demoView demoViewport demoGraph))).2).2.m_cameraSelectionDirty = true := by
  decide

end CameraTool
